import Mathlib

/-!
Verification of the ledger-consistency core of the Microfinance-TK repository.

The development shallowly embeds, from `app/models.py` and the two batch
commands `app/management/commands/create_pending_payments.py` and
`app/management/commands/apply_penalties.py`:

* Python `datetime.date` values and the pieces of calendar arithmetic the
  code uses (`timedelta(days=n)`, `dateutil.relativedelta` month deltas and
  month addition, `calendar.monthrange`);
* the singleton balance helper `update_system_balance`;
* the save/delete hooks of `MonthlyMembershipDeposit`, `LoanInterestPayment`,
  `LoanPrinciplePayment` and `FundManagement` as a state machine over an
  explicit database state (balance, tables keyed by primary key, payment
  transactions);
* the penalty accrual loop of `apply_penalties` (per overdue obligation)
  together with `Penalty.save`, and `calculate_months_overdue`;
* the pending obligation generator of `create_pending_payments`
  (per membership-user / per loan, since every database query it issues is
  filtered to the one subject being processed).

Monetary `Decimal` amounts are modelled as integers (the scale is
irrelevant to every property proved below: the hooks only add, subtract
and compare amounts).
-/

namespace Microfinance

/-! ## Python dates (`datetime.date`) -/

/-- A Python `datetime.date`: lexicographically ordered (year, month, day).
Fields are unbounded integers as in Python; validity (month in 1..12, day in
range for the month) is stated as a separate predicate where a proof needs it. -/
structure PyDate where
  year : Int
  month : Int
  day : Int
deriving DecidableEq, Repr

/-- Python date comparison `a < b` (lexicographic). -/
def pyDateLt (a b : PyDate) : Bool :=
  if a.year < b.year then true
  else if b.year < a.year then false
  else if a.month < b.month then true
  else if b.month < a.month then false
  else decide (a.day < b.day)

/-- Python date comparison `a <= b`. -/
def pyDateLe (a b : PyDate) : Bool :=
  pyDateLt a b || a = b

/-- Gregorian leap-year test, as `calendar.isleap`. -/
def isLeap (y : Int) : Bool :=
  y % 4 = 0 && (y % 100 ≠ 0 || y % 400 = 0)

/-- Number of days in a month, as `calendar.monthrange(y, m)[1]` for
`m` in 1..12. -/
def daysInMonth (y m : Int) : Int :=
  if m = 2 then (if isLeap y then 29 else 28)
  else if m = 4 ∨ m = 6 ∨ m = 9 ∨ m = 11 then 30
  else 31

/-- A structurally valid calendar date. -/
def validDate (d : PyDate) : Prop :=
  1 ≤ d.month ∧ d.month ≤ 12 ∧ 1 ≤ d.day ∧ d.day ≤ daysInMonth d.year d.month

instance (d : PyDate) : Decidable (validDate d) := by
  unfold validDate; infer_instance

/-- Add `k` calendar months to a date, clamping the day to the length of the
target month — the behaviour of `d + relativedelta(months=k)` from
`dateutil`. -/
def addMonths (d : PyDate) (k : Int) : PyDate :=
  let t := 12 * d.year + (d.month - 1) + k
  let y := t / 12
  let m := t % 12 + 1
  { year := y, month := m, day := min d.day (daysInMonth y m) }

/-- Days from the epoch to the start of year `y` (rata die):
`365·(y−1) + ⌊(y−1)/4⌋ − ⌊(y−1)/100⌋ + ⌊(y−1)/400⌋`. -/
def daysBeforeYear (y : Int) : Int :=
  365 * (y - 1) + (y - 1) / 4 - (y - 1) / 100 + (y - 1) / 400

/-- Cumulative day count of the months before month `m` in year `y`. -/
def daysBeforeMonth (y m : Int) : Int :=
  (if m ≤ 1 then 0
   else if m ≤ 2 then 31
   else if m ≤ 3 then 59
   else if m ≤ 4 then 90
   else if m ≤ 5 then 120
   else if m ≤ 6 then 151
   else if m ≤ 7 then 181
   else if m ≤ 8 then 212
   else if m ≤ 9 then 243
   else if m ≤ 10 then 273
   else if m ≤ 11 then 304
   else 334)
  + (if 2 < m ∧ isLeap y then 1 else 0)

/-- Rata-die ordinal of a date, as Python `date.toordinal()`. -/
def toOrdinal (d : PyDate) : Int :=
  daysBeforeYear d.year + daysBeforeMonth d.year d.month + d.day

/-- The successor day of a valid date. -/
def nextDay (d : PyDate) : PyDate :=
  if d.day < daysInMonth d.year d.month then { d with day := d.day + 1 }
  else if d.month < 12 then { year := d.year, month := d.month + 1, day := 1 }
  else { year := d.year + 1, month := 1, day := 1 }

/-- Add a (nonnegative) number of days to a date: `d + timedelta(days=n)`. -/
def addDays (d : PyDate) : Nat → PyDate
  | 0 => d
  | n + 1 => addDays (nextDay d) n

/-- The month/day part of `relativedelta(e, s)` from `dateutil`, for dates
with `s ≤ e`: the exact calendar-month difference, decremented once when
overshooting, paired with the remaining day count.  Mirrors the library
algorithm (the correction loop runs at most once for `s ≤ e`). -/
def relDelta (s e : PyDate) : Int × Int :=
  let m0 := 12 * (e.year - s.year) + (e.month - s.month)
  let dtm := addMonths s m0
  if pyDateLt e dtm then
    let dtm2 := addMonths s (m0 - 1)
    (m0 - 1, toOrdinal e - toOrdinal dtm2)
  else
    (m0, toOrdinal e - toOrdinal dtm)

/-- `Command.calculate_months_overdue(start_date, end_date)` from
`apply_penalties.py`:  0 when `end_date <= start_date`; otherwise the
relativedelta month difference, plus one when `end_date.day >= start_date.day`
or a day remainder exists, floored at 0. -/
def calculate_months_overdue (s e : PyDate) : Int :=
  if pyDateLe e s then 0
  else
    let d := relDelta s e
    let months := d.1
    let months := if e.day ≥ s.day ∨ d.2 > 0 then months + 1 else months
    max 0 months

/-! ## The singleton balance helper (`update_system_balance`) -/

/-- `update_system_balance(amount, operation)` from `app/models.py`: inside a
row-locked transaction, adds or subtracts `amount` from the singleton
`MySetting.balance`, and raises `ValueError` on any other operation string
(the Python message also quotes the two legal values).  The result is the new
stored balance, or the error with the balance left unwritten. -/
def update_system_balance (balance amount : Int) (operation : String) : Except String Int :=
  if operation = "add" then Except.ok (balance + amount)
  else if operation = "subtract" then Except.ok (balance - amount)
  else Except.error ("Invalid operation: " ++ operation)

/-- The balance stored after a call to `update_system_balance`: unchanged when
the call raises. -/
def storedBalanceAfter (balance amount : Int) (operation : String) : Int :=
  match update_system_balance balance amount operation with
  | Except.ok b => b
  | Except.error _ => balance

/-! ## Entity hooks as a state machine

The save/delete hooks of `MonthlyMembershipDeposit`, `LoanInterestPayment`,
`LoanPrinciplePayment` and `FundManagement` are embedded as transitions on an
explicit database state.  `MonthlyMembershipDeposit` and `LoanInterestPayment`
have byte-for-byte identical balance/transaction logic in the source
(differing only in the model queried and the `payment_type` string), so one
parametrised core serves both; `LoanPrinciplePayment` shares the transaction
logic and has no balance effect.  Updates and deletes address an existing
primary key (an update of an absent key is a no-op here; in Django that would
be a save of a dangling instance, which is not one of the claims' operations).
-/

/-- The `PaymentStatus` text choices. -/
inductive PayStatus where
  | pending
  | paid
deriving DecidableEq, Repr

/-- The balance-relevant fields of a `MonthlyMembershipDeposit`,
`LoanInterestPayment` or `LoanPrinciplePayment` row. -/
structure PayRec where
  amount : Int
  payment_status : PayStatus
  is_custom : Bool
deriving DecidableEq, Repr

/-- The `FundManagementType` text choices. -/
inductive FMType where
  | credit
  | debit
deriving DecidableEq, Repr

/-- The `WithdrawalStatus` text choices, used by `FundManagement.status`. -/
inductive FMStatus where
  | pending
  | approved
  | rejected
deriving DecidableEq, Repr

/-- The balance-relevant fields of a `FundManagement` row. -/
structure FundRec where
  type : FMType
  amount : Int
  status : FMStatus
deriving DecidableEq, Repr

/-- The fields of a `PaymentTransaction` row relevant to the claims. -/
structure Txn where
  payment_type : String
  related_object_id : Nat
  amount : Int
deriving DecidableEq, Repr

/-- The database state seen by the hooks: the singleton balance, the three
payment tables and the fund table keyed by primary key, the payment
transactions, and the next fresh primary key. -/
structure LedgerState where
  balance : Int
  deposits : List (Nat × PayRec)
  interests : List (Nat × PayRec)
  principles : List (Nat × PayRec)
  funds : List (Nat × FundRec)
  txns : List Txn
  nextId : Nat
deriving Repr

/-- Look up the row with primary key `k` (first occurrence). -/
def lookupPk (k : Nat) : List (Nat × α) → Option α
  | [] => none
  | (k2, v) :: t => if k = k2 then some v else lookupPk k t

/-- Replace the value of the first row keyed `k`. -/
def replaceFirst (k : Nat) (v : α) : List (Nat × α) → List (Nat × α)
  | [] => []
  | (k2, w) :: t => if k = k2 then (k2, v) :: t else (k2, w) :: replaceFirst k v t

/-- Remove the first row keyed `k`. -/
def eraseFirst (k : Nat) : List (Nat × α) → List (Nat × α)
  | [] => []
  | (k2, w) :: t => if k = k2 then t else (k2, w) :: eraseFirst k t

/-- `PaymentTransaction.objects.filter(payment_type=pt, related_object_id=oid).delete()`. -/
def txnDeleteFor (pt : String) (oid : Nat) (ts : List Txn) : List Txn :=
  ts.filter (fun t => !(t.payment_type = pt ∧ t.related_object_id = oid))

/-- The balance adjustment the deposit/interest save hook performs on an
update, transcribed from `MonthlyMembershipDeposit.save`
(`LoanInterestPayment.save` is identical): status paid→pending subtracts the
old amount, pending→paid adds the new amount, and an amount change while paid
adds the positive difference or subtracts its absolute value. -/
def payDelta (old new : PayRec) : Int :=
  if old.payment_status ≠ new.payment_status then
    if old.payment_status = PayStatus.paid ∧ new.payment_status = PayStatus.pending then
      -old.amount
    else if old.payment_status = PayStatus.pending ∧ new.payment_status = PayStatus.paid then
      new.amount
    else 0
  else if new.payment_status = PayStatus.paid ∧ old.amount ≠ new.amount then
    if new.amount - old.amount > 0 then new.amount - old.amount
    else -(old.amount - new.amount)
  else 0

/-- The signed balance application of an approved `FundManagement` row:
credit adds, debit subtracts (`FundManagement.save`, new-record branch). -/
def fundApply (r : FundRec) : Int :=
  if r.type = FMType.credit then r.amount else -r.amount

/-- The balance adjustment `FundManagement.save` performs on an update: on a
status change, reverse the old application if it was approved and apply the
new one if it is approved; with status approved on both sides and the amount
or type changed, reverse the old application and apply the new one. -/
def fundDelta (old new : FundRec) : Int :=
  if old.status ≠ new.status then
    (if old.status = FMStatus.approved then -(fundApply old) else 0)
      + (if new.status = FMStatus.approved then fundApply new else 0)
  else if new.status = FMStatus.approved then
    if old.amount ≠ new.amount ∨ old.type ≠ new.type then
      -(fundApply old) + fundApply new
    else 0
  else 0

/-- Create a deposit/interest/principle row (`save` with `pk = None`):
insert with a fresh key, add the amount when created already paid (for
`affectsBalance = false`, the `LoanPrinciplePayment` case, the balance is
untouched), and when paid and `is_custom` delete any transaction for the pair
and insert a fresh cash transaction. -/
def payCreateCore (pt : String) (affectsBalance : Bool) (rows : List (Nat × PayRec))
    (balance : Int) (ts : List Txn) (nextId : Nat) (r : PayRec) :
    List (Nat × PayRec) × Int × List Txn × Nat :=
  let pk := nextId
  let rows2 := rows ++ [(pk, r)]
  let balance2 :=
    if affectsBalance ∧ r.payment_status = PayStatus.paid then balance + r.amount else balance
  let ts2 :=
    if r.payment_status = PayStatus.paid ∧ r.is_custom then
      txnDeleteFor pt pk ts ++ [{ payment_type := pt, related_object_id := pk, amount := r.amount }]
    else ts
  (rows2, balance2, ts2, nextId + 1)

/-- Update an existing deposit/interest/principle row (`save` with `pk` set):
fetch the old row, persist the new one, apply `payDelta`, and when the status
became paid with `is_custom` set, delete any transaction for the pair and
insert a fresh cash transaction. -/
def payUpdateCore (pt : String) (affectsBalance : Bool) (rows : List (Nat × PayRec))
    (balance : Int) (ts : List Txn) (pk : Nat) (r : PayRec) :
    List (Nat × PayRec) × Int × List Txn :=
  match lookupPk pk rows with
  | none => (rows, balance, ts)
  | some old =>
    let rows2 := replaceFirst pk r rows
    let balance2 := if affectsBalance then balance + payDelta old r else balance
    let ts2 :=
      if r.payment_status = PayStatus.paid ∧ r.is_custom ∧ old.payment_status ≠ PayStatus.paid then
        txnDeleteFor pt pk ts ++ [{ payment_type := pt, related_object_id := pk, amount := r.amount }]
      else ts
    (rows2, balance2, ts2)

/-- Delete a deposit/interest/principle row: subtract the amount when it was
paid (not for `LoanPrinciplePayment`), then remove the row. -/
def payDeleteCore (affectsBalance : Bool) (rows : List (Nat × PayRec)) (balance : Int)
    (pk : Nat) : List (Nat × PayRec) × Int :=
  match lookupPk pk rows with
  | none => (rows, balance)
  | some old =>
    (eraseFirst pk rows,
     if affectsBalance ∧ old.payment_status = PayStatus.paid then balance - old.amount
     else balance)

/-- One create/update/delete performed through a model hook. -/
inductive Op where
  | depCreate (r : PayRec)
  | depUpdate (pk : Nat) (r : PayRec)
  | depDelete (pk : Nat)
  | intCreate (r : PayRec)
  | intUpdate (pk : Nat) (r : PayRec)
  | intDelete (pk : Nat)
  | prinCreate (r : PayRec)
  | prinUpdate (pk : Nat) (r : PayRec)
  | prinDelete (pk : Nat)
  | fundCreate (r : FundRec)
  | fundUpdate (pk : Nat) (r : FundRec)
  | fundDelete (pk : Nat)

/-- The transition function: each operation runs the corresponding hook from
`app/models.py` against the state. -/
def step (s : LedgerState) : Op → LedgerState
  | Op.depCreate r =>
    let out := payCreateCore "deposit" true s.deposits s.balance s.txns s.nextId r
    { s with deposits := out.1, balance := out.2.1, txns := out.2.2.1, nextId := out.2.2.2 }
  | Op.depUpdate pk r =>
    let out := payUpdateCore "deposit" true s.deposits s.balance s.txns pk r
    { s with deposits := out.1, balance := out.2.1, txns := out.2.2 }
  | Op.depDelete pk =>
    let out := payDeleteCore true s.deposits s.balance pk
    { s with deposits := out.1, balance := out.2 }
  | Op.intCreate r =>
    let out := payCreateCore "interest" true s.interests s.balance s.txns s.nextId r
    { s with interests := out.1, balance := out.2.1, txns := out.2.2.1, nextId := out.2.2.2 }
  | Op.intUpdate pk r =>
    let out := payUpdateCore "interest" true s.interests s.balance s.txns pk r
    { s with interests := out.1, balance := out.2.1, txns := out.2.2 }
  | Op.intDelete pk =>
    let out := payDeleteCore true s.interests s.balance pk
    { s with interests := out.1, balance := out.2 }
  | Op.prinCreate r =>
    let out := payCreateCore "principle" false s.principles s.balance s.txns s.nextId r
    { s with principles := out.1, balance := out.2.1, txns := out.2.2.1, nextId := out.2.2.2 }
  | Op.prinUpdate pk r =>
    let out := payUpdateCore "principle" false s.principles s.balance s.txns pk r
    { s with principles := out.1, balance := out.2.1, txns := out.2.2 }
  | Op.prinDelete pk =>
    let out := payDeleteCore false s.principles s.balance pk
    { s with principles := out.1, balance := out.2 }
  | Op.fundCreate r =>
    let pk := s.nextId
    let balance2 :=
      if r.status = FMStatus.approved then s.balance + fundApply r else s.balance
    { s with funds := s.funds ++ [(pk, r)], balance := balance2, nextId := s.nextId + 1 }
  | Op.fundUpdate pk r =>
    match lookupPk pk s.funds with
    | none => s
    | some old =>
      { s with funds := replaceFirst pk r s.funds, balance := s.balance + fundDelta old r }
  | Op.fundDelete pk =>
    match lookupPk pk s.funds with
    | none => s
    | some old =>
      { s with funds := eraseFirst pk s.funds,
               balance := if old.status = FMStatus.approved then s.balance - fundApply old
                          else s.balance }

/-- Run a sequence of hook operations. -/
def run (ops : List Op) (s : LedgerState) : LedgerState :=
  ops.foldl step s

/-- The initial state: a given balance and no rows. -/
def initState (b : Int) : LedgerState :=
  { balance := b, deposits := [], interests := [], principles := [], funds := [],
    txns := [], nextId := 1 }

/-- The amount a deposit/interest row contributes to the balance: its amount
when paid. -/
def payVal (r : PayRec) : Int :=
  if r.payment_status = PayStatus.paid then r.amount else 0

/-- The signed amount a fund row contributes to the balance: its signed
application when approved. -/
def fundVal (r : FundRec) : Int :=
  if r.status = FMStatus.approved then fundApply r else 0

/-- Sum a valuation over a keyed table. -/
def sumBy (f : α → Int) (l : List (Nat × α)) : Int :=
  (l.map (fun p => f p.2)).sum

/-- The sum of all counted amounts: paid deposits and interest payments plus
signed approved fund transactions. -/
def countedSum (s : LedgerState) : Int :=
  sumBy payVal s.deposits + sumBy payVal s.interests + sumBy fundVal s.funds

/-! ## Payment-transaction uniqueness -/

/-- Number of `PaymentTransaction` rows for a `(payment_type,
related_object_id)` pair. -/
def txnCount (ts : List Txn) (pt : String) (oid : Nat) : Nat :=
  (ts.filter (fun t => t.payment_type = pt ∧ t.related_object_id = oid)).length

/-! ## Penalty accrual engine (`apply_penalties.py` and `Penalty.save`) -/

/-- The fields of a `Penalty` row relevant to the claims. -/
structure PenaltyRow where
  penalty_type : String
  related_object_id : Nat
  base_amount : Int
  month_number : Int
  penalty_amount : Int
  total_penalty : Int
  payment_status : PayStatus
  due_date : PyDate
deriving DecidableEq, Repr

/-- `Penalty.save` for a new row (`Penalty.objects.create`): keep the caller's
penalty amount unless it is zero (then `base_amount × 2^(month_number−1)`),
and set `total_penalty` to the sum of the pending penalty amounts of the rows
sharing `(penalty_type, related_object_id)` plus this row's own amount; then
insert the row. -/
def penaltySaveNew (db : List PenaltyRow) (r : PenaltyRow) : List PenaltyRow :=
  let pa := if r.penalty_amount = 0 then r.base_amount * 2 ^ (r.month_number - 1).toNat
            else r.penalty_amount
  let siblings := db.filter (fun q =>
    q.penalty_type = r.penalty_type ∧ q.related_object_id = r.related_object_id ∧
      q.payment_status = PayStatus.pending)
  let total := (siblings.map (fun q => q.penalty_amount)).sum + pa
  db ++ [{ r with penalty_amount := pa, total_penalty := total }]

/-- The month numbers of the penalties already recorded for an obligation
(`existing_penalties.values_list(month_number)` in `apply_penalties.py`). -/
def penaltyMonthsFor (db : List PenaltyRow) (pt : String) (oid : Nat) : List Int :=
  (db.filter (fun q => q.penalty_type = pt ∧ q.related_object_id = oid)).map
    (fun q => q.month_number)

/-- Due date of the penalty for overdue month `monthNum`:
`penalty_start + relativedelta(months=month_num−1)` with the day replaced
by 1. -/
def penaltyDueDate (penaltyStart : PyDate) (monthNum : Int) : PyDate :=
  let d := addMonths penaltyStart (monthNum - 1)
  { d with day := 1 }

/-- The body of the per-month loop of `Command.process_deposits` /
`Command.process_interest_payments` (they are identical up to the type tag):
skip the month when already penalised and not forcing; otherwise compute the
doubled penalty amount and the month-1 due date and, unless dry-running,
delete the existing penalty when forcing and the month is in the
pre-computed set (which the source leaves empty under force) and create the
penalty row.  `i` is the zero-based loop index, so `month_num = i + 1`. -/
def oblBody (pt : String) (oid : Nat) (base : Int) (ps : PyDate) (ex : List Int)
    (force dryRun : Bool) (db2 : List PenaltyRow) (i : Nat) : List PenaltyRow :=
  let monthNum : Int := (i : Int) + 1
  if monthNum ∈ ex ∧ ¬force then db2
  else
    let pa := base * 2 ^ i
    let due := penaltyDueDate ps monthNum
    if dryRun then db2
    else
      let db3 :=
        if force ∧ monthNum ∈ ex then
          db2.filter (fun q =>
            ¬(q.penalty_type = pt ∧ q.related_object_id = oid ∧ q.month_number = monthNum))
        else db2
      penaltySaveNew db3
        { penalty_type := pt, related_object_id := oid, base_amount := base,
          month_number := monthNum, penalty_amount := pa, total_penalty := 0,
          payment_status := PayStatus.pending, due_date := due }

/-- Processing of one overdue obligation with a known `months_overdue`
(`apply_penalties.py`, the loop after `calculate_months_overdue`): the
already-penalised month set is read first (and replaced by the empty set when
forcing), then months 1..months_overdue are visited in order. -/
def processObligation (db : List PenaltyRow) (pt : String) (oid : Nat) (base : Int)
    (monthsOverdue : Int) (ps : PyDate) (force dryRun : Bool) : List PenaltyRow :=
  let ex := if force then [] else penaltyMonthsFor db pt oid
  (List.range monthsOverdue.toNat).foldl (oblBody pt oid base ps ex force dryRun) db

/-- The pending-deposit fields `process_deposits` reads. -/
structure DepObligation where
  pk : Nat
  date : PyDate
  payment_status : PayStatus
deriving DecidableEq, Repr

/-- `Command.process_deposits` restricted to a single deposit: only pending
deposits whose `date + grace` lies strictly before today are considered, the
overdue month count is computed, non-positive counts are skipped, and the
per-month loop runs otherwise. -/
def processDeposit (today : PyDate) (grace : Nat) (base : Int) (force dryRun : Bool)
    (db : List PenaltyRow) (dep : DepObligation) : List PenaltyRow :=
  if dep.payment_status ≠ PayStatus.pending then db
  else
    let ps := addDays dep.date grace
    if ¬ pyDateLt ps today then db
    else
      let mo := calculate_months_overdue ps today
      if mo ≤ 0 then db
      else processObligation db "deposit" dep.pk base mo ps force dryRun

/-! ## Pending obligation generator (`create_pending_payments.py`) -/

/-- The English month abbreviations used for the derived row label. -/
def monthName (m : Int) : String :=
  if m = 1 then "Jan" else if m = 2 then "Feb" else if m = 3 then "Mar"
  else if m = 4 then "Apr" else if m = 5 then "May" else if m = 6 then "Jun"
  else if m = 7 then "Jul" else if m = 8 then "Aug" else if m = 9 then "Sep"
  else if m = 10 then "Oct" else if m = 11 then "Nov" else "Dec"

/-- The derived row label, Python format string `{year} {month_names[m-1]}`. -/
def mkMonthLabel (y m : Int) : String :=
  toString y ++ " " ++ monthName m

/-- Zero-based month counter used to walk calendar months. -/
def monthIndex (y m : Int) : Int := 12 * y + (m - 1)

/-- Inverse of `monthIndex`. -/
def monthOfIndex (t : Int) : Int × Int := (t / 12, t % 12 + 1)

/-- `Command.get_months_to_check(start_date, end_date, include_current_month)`:
every (year, month) from the start month through the end month inclusive,
where the end month is the current month when including it, otherwise the
previous month — except that a start date lying in the current month keeps
the current month as the end.  The source walks `current <= end` month by
month; here the walk is the index range. -/
def get_months_to_check (start endDate : PyDate) (includeCurrent : Bool) :
    List (Int × Int) :=
  let startIdx := monthIndex start.year start.month
  let endMonth := monthIndex endDate.year endDate.month
  let endIdx :=
    if includeCurrent then endMonth
    else if startIdx = endMonth then endMonth
    else endMonth - 1
  (List.range (endIdx + 1 - startIdx).toNat).map (fun i => monthOfIndex (startIdx + (i : Int)))

/-- Due date of a generated obligation for (y, m):
`date(year, month, min(due_day, monthrange(year, month)[1]))`. -/
def clampedDueDate (y m dueDay : Int) : PyDate :=
  ⟨y, m, min dueDay (daysInMonth y m)⟩

/-- The fields of a generated/matched `MonthlyMembershipDeposit` row the
generator reads. -/
structure GDeposit where
  date : PyDate
  name : String
  payment_status : PayStatus
deriving DecidableEq, Repr

/-- The existence check of `create_pending_deposits`:
`Q(date__year=y, date__month=m) | Q(name=label)` over the subject's rows,
paid or pending alike. -/
def depositExists (rows : List GDeposit) (y m : Int) : Bool :=
  rows.any (fun r => (r.date.year = y ∧ r.date.month = m) ∨ r.name = mkMonthLabel y m)

/-- The deposit row the generator creates for a missing (y, m): clamped due
date, derived label, status pending. -/
def mkPendingDeposit (dueDay : Int) (ym : Int × Int) : GDeposit :=
  { date := clampedDueDate ym.1 ym.2 dueDay, name := mkMonthLabel ym.1 ym.2,
    payment_status := PayStatus.pending }

/-- The fields of a generated/matched `LoanInterestPayment` row the generator
reads.  Generated rows carry the computed monthly due date in `paid_date`. -/
structure GInterest where
  paid_date : Option PyDate
  name : String
  payment_status : PayStatus
deriving DecidableEq, Repr

/-- The existence check of `create_pending_interest_payments`:
`Q(paid_date__year=y, paid_date__month=m) | Q(name=label)`; a null
`paid_date` matches nothing in the first disjunct. -/
def interestExists (rows : List GInterest) (y m : Int) : Bool :=
  rows.any (fun r =>
    (match r.paid_date with
     | some d => decide (d.year = y ∧ d.month = m)
     | none => false) || decide (r.name = mkMonthLabel y m))

/-- The interest row the generator creates for a missing (y, m): the clamped
due date stored in `paid_date`, the derived label, status pending
(`LoanInterestPayment.save` then leaves both untouched since the status is
pending and the name is non-empty). -/
def mkPendingInterest (dueDay : Int) (ym : Int × Int) : GInterest :=
  { paid_date := some (clampedDueDate ym.1 ym.2 dueDay), name := mkMonthLabel ym.1 ym.2,
    payment_status := PayStatus.pending }

/-- The month loop shared by both generator halves: visit the months in
order, appending a freshly created row whenever the existence check fails on
the rows as they stand at that point of the run. -/
def genFold (ex : List α → Int × Int → Bool) (mk : Int × Int → α)
    (months : List (Int × Int)) (rows : List α) : List α :=
  months.foldl (fun rows2 ym => if ex rows2 ym then rows2 else rows2 ++ [mk ym]) rows

/-- `Command.create_pending_deposits` for one membership user: the current
month is checked when today's day-of-month has reached the configured due
day, and each enumerated month missing from the subject's rows gets a pending
deposit. -/
def create_pending_deposits (today : PyDate) (dueDay : Int) (start : PyDate)
    (rows : List GDeposit) : List GDeposit :=
  let checkCurrent := decide (today.day ≥ dueDay)
  genFold (fun rows2 ym => depositExists rows2 ym.1 ym.2) (mkPendingDeposit dueDay)
    (get_months_to_check start today checkCurrent) rows

/-- `Command.create_pending_interest_payments` for one loan. -/
def create_pending_interest_payments (today : PyDate) (dueDay : Int) (start : PyDate)
    (rows : List GInterest) : List GInterest :=
  let checkCurrent := decide (today.day ≥ dueDay)
  genFold (fun rows2 ym => interestExists rows2 ym.1 ym.2) (mkPendingInterest dueDay)
    (get_months_to_check start today checkCurrent) rows

/-- The accrual engine's due-date selection for an interest payment
(`process_interest_payments`): the stored `paid_date` when present, else the
`"YYYY Mon"` label parsed back into a date whose day is the configured
interest day clamped to at most 28, else the row's creation date. -/
def monthNames : List String :=
  ["Jan", "Feb", "Mar", "Apr", "May", "Jun", "Jul", "Aug", "Sep", "Oct", "Nov", "Dec"]

/-- Parse a `"YYYY Mon"` label; any failure (wrong shape, unknown month,
non-numeric year) yields `none`, the `except` path of the source. -/
def parseMonthLabel (s : String) : Option (Int × Int) :=
  match s.splitOn " " with
  | [ys, ms] =>
    match ys.toInt?, monthNames.indexOf? ms with
    | some y, some i => some (y, (i : Int) + 1)
    | _, _ => none
  | _ => none

/-- Due date used by the penalty engine for an interest payment
(`settingsDay` is `settings.loan_interest_payment_date or 1`). -/
def interestDueDate (settingsDay : Int) (createdAt : PyDate) (r : GInterest) : PyDate :=
  match r.paid_date with
  | some d => d
  | none =>
    match parseMonthLabel r.name with
    | some ym => ⟨ym.1, ym.2, min settingsDay 28⟩
    | none => createdAt

/-- The interest-penalty due date computed from a parsed label:
`date(year, month, min(day, 28))`. -/
def interestNameDueDate (y m settingsDay : Int) : PyDate :=
  ⟨y, m, min settingsDay 28⟩

/-! ## Sum and delta lemmas for the ledger invariant -/

theorem sumBy_append (f : α → Int) (l : List (Nat × α)) (k : Nat) (v : α) :
    sumBy f (l ++ [(k, v)]) = sumBy f l + f v := by
  simp [sumBy]

theorem sumBy_replaceFirst (f : α → Int) (k : Nat) (w : α) (l : List (Nat × α)) (v : α)
    (h : lookupPk k l = some v) :
    sumBy f (replaceFirst k w l) = sumBy f l - f v + f w := by
  induction l with
  | nil => simp [lookupPk] at h
  | cons p t ih =>
    obtain ⟨k2, u⟩ := p
    by_cases hk : k = k2
    · simp [lookupPk, hk] at h
      subst h
      simp [replaceFirst, hk, sumBy]
      ring
    · simp [lookupPk, hk] at h
      simp [replaceFirst, hk, sumBy] at ih ⊢
      rw [ih h]
      ring

theorem sumBy_eraseFirst (f : α → Int) (k : Nat) (l : List (Nat × α)) (v : α)
    (h : lookupPk k l = some v) :
    sumBy f (eraseFirst k l) = sumBy f l - f v := by
  induction l with
  | nil => simp [lookupPk] at h
  | cons p t ih =>
    obtain ⟨k2, u⟩ := p
    by_cases hk : k = k2
    · simp [lookupPk, hk] at h
      subst h
      simp [eraseFirst, hk, sumBy]
      try ring
    · simp [lookupPk, hk] at h
      simp [eraseFirst, hk, sumBy] at ih ⊢
      rw [ih h]
      ring

theorem payDelta_eq (o n : PayRec) : payDelta o n = payVal n - payVal o := by
  obtain ⟨oa, os, oc⟩ := o
  obtain ⟨na, ns, nc⟩ := n
  cases os <;> cases ns <;>
    by_cases h : oa = na <;>
    simp [payDelta, payVal, h] <;>
    omega

theorem fundDelta_eq (o n : FundRec) : fundDelta o n = fundVal n - fundVal o := by
  obtain ⟨ot, oa, os⟩ := o
  obtain ⟨nt, na, ns⟩ := n
  cases os <;> cases ns <;> cases ot <;> cases nt <;>
    by_cases h : oa = na <;>
    simp [fundDelta, fundVal, fundApply, h] <;>
    omega

/-- One hook step preserves the difference between the balance and the sum of
counted amounts. -/
theorem step_preserves_ledger (s : LedgerState) (op : Op) :
    (step s op).balance - countedSum (step s op) = s.balance - countedSum s := by
  cases op with
  | depCreate r =>
    simp only [step, payCreateCore, countedSum, sumBy_append]
    rcases hs : r.payment_status <;> simp [hs, payVal] <;> ring
  | depUpdate pk r =>
    simp only [step, payUpdateCore]
    cases h : lookupPk pk s.deposits with
    | none => simp
    | some old =>
      simp only [countedSum]
      rw [sumBy_replaceFirst payVal pk r s.deposits old h, payDelta_eq]
      simp
      ring
  | depDelete pk =>
    simp only [step, payDeleteCore]
    cases h : lookupPk pk s.deposits with
    | none => simp
    | some old =>
      simp only [countedSum]
      rw [sumBy_eraseFirst payVal pk s.deposits old h]
      rcases hs : old.payment_status <;> simp [hs, payVal] <;> ring
  | intCreate r =>
    simp only [step, payCreateCore, countedSum, sumBy_append]
    rcases hs : r.payment_status <;> simp [hs, payVal] <;> ring
  | intUpdate pk r =>
    simp only [step, payUpdateCore]
    cases h : lookupPk pk s.interests with
    | none => simp
    | some old =>
      simp only [countedSum]
      rw [sumBy_replaceFirst payVal pk r s.interests old h, payDelta_eq]
      simp
      ring
  | intDelete pk =>
    simp only [step, payDeleteCore]
    cases h : lookupPk pk s.interests with
    | none => simp
    | some old =>
      simp only [countedSum]
      rw [sumBy_eraseFirst payVal pk s.interests old h]
      rcases hs : old.payment_status <;> simp [hs, payVal] <;> ring
  | prinCreate r =>
    simp [step, payCreateCore, countedSum]
  | prinUpdate pk r =>
    simp only [step, payUpdateCore]
    cases h : lookupPk pk s.principles with
    | none => simp
    | some old => simp [countedSum]
  | prinDelete pk =>
    simp only [step, payDeleteCore]
    cases h : lookupPk pk s.principles with
    | none => simp
    | some old => simp [countedSum]
  | fundCreate r =>
    simp only [step, countedSum, sumBy_append]
    rcases hs : r.status <;> simp [hs, fundVal] <;> ring
  | fundUpdate pk r =>
    simp only [step]
    cases h : lookupPk pk s.funds with
    | none => simp
    | some old =>
      simp only [countedSum]
      rw [sumBy_replaceFirst fundVal pk r s.funds old h, fundDelta_eq]
      try simp
      ring
  | fundDelete pk =>
    simp only [step]
    cases h : lookupPk pk s.funds with
    | none => simp
    | some old =>
      simp only [countedSum]
      rw [sumBy_eraseFirst fundVal pk s.funds old h]
      rcases hs : old.status <;> simp [hs, fundVal] <;> ring

/-- Running any sequence of hook operations preserves the difference between
the balance and the sum of counted amounts. -/
theorem run_preserves_ledger (ops : List Op) (s : LedgerState) :
    (run ops s).balance - countedSum (run ops s) = s.balance - countedSum s := by
  induction ops generalizing s with
  | nil => rfl
  | cons op t ih =>
    have h1 := step_preserves_ledger s op
    have h2 := ih (step s op)
    simp only [run, List.foldl_cons] at h2 ⊢
    omega

/-- C1: Balance conservation.  For every finite sequence of create, update
and delete operations on `MonthlyMembershipDeposit`, `LoanInterestPayment`
and `FundManagement` rows (plus balance-neutral `LoanPrinciplePayment`
operations), each performed through the model save/delete hooks, the final
balance equals the initial balance plus the sum, with correct signs, of the
amounts of the rows that end in a counted state (paid deposits and interest
payments add; approved credits add; approved debits subtract), independently
of the order of status/amount/type changes.  In particular a deposit created
pending with amount 500, marked paid, then edited back to pending leaves the
balance net-unchanged. -/
theorem C1_balance_conservation (ops : List Op) (b : Int) :
    (run ops (initState b)).balance = b + countedSum (run ops (initState b)) ∧
    (run [Op.depCreate { amount := 500, payment_status := PayStatus.pending, is_custom := false },
          Op.depUpdate 1 { amount := 500, payment_status := PayStatus.paid, is_custom := false },
          Op.depUpdate 1 { amount := 500, payment_status := PayStatus.pending, is_custom := false }]
       (initState b)).balance = b := by
  constructor
  · have h := run_preserves_ledger ops (initState b)
    have h0 : countedSum (initState b) = 0 := by simp [initState, countedSum, sumBy]
    have hb : (initState b).balance = b := rfl
    rw [h0, hb] at h
    omega
  · simp [run, step, initState, payCreateCore, payUpdateCore, lookupPk, replaceFirst,
          payDelta, payVal, txnDeleteFor]

/-- C6: FundManagement cross-type edit scenario.  From any starting balance, a
`FundManagement` row created as a pending debit of 200 leaves the balance
unchanged; approving it decreases the balance by 200; editing its type to
credit while it stays approved reverses the old debit and applies the new
credit, a net change of +400 over that edit, landing at the starting balance
plus 200. -/
theorem C6_fund_cross_type_edit (b : Int) :
    (run [Op.fundCreate { type := FMType.debit, amount := 200, status := FMStatus.pending }]
       (initState b)).balance = b ∧
    (run [Op.fundCreate { type := FMType.debit, amount := 200, status := FMStatus.pending },
          Op.fundUpdate 1 { type := FMType.debit, amount := 200, status := FMStatus.approved }]
       (initState b)).balance = b - 200 ∧
    (run [Op.fundCreate { type := FMType.debit, amount := 200, status := FMStatus.pending },
          Op.fundUpdate 1 { type := FMType.debit, amount := 200, status := FMStatus.approved },
          Op.fundUpdate 1 { type := FMType.credit, amount := 200, status := FMStatus.approved }]
       (initState b)).balance = b + 200 ∧
    (run [Op.fundCreate { type := FMType.debit, amount := 200, status := FMStatus.pending },
          Op.fundUpdate 1 { type := FMType.debit, amount := 200, status := FMStatus.approved },
          Op.fundUpdate 1 { type := FMType.credit, amount := 200, status := FMStatus.approved }]
       (initState b)).balance
      - (run [Op.fundCreate { type := FMType.debit, amount := 200, status := FMStatus.pending },
              Op.fundUpdate 1 { type := FMType.debit, amount := 200, status := FMStatus.approved }]
           (initState b)).balance = 400 := by
  refine ⟨?_, ?_, ?_, ?_⟩ <;>
    simp [run, step, initState, lookupPk, replaceFirst, fundDelta, fundApply] <;>
    ring

/-- C9: Balance-delta contract.  `update_system_balance` raises an
invalid-operation error for every operation other than add and subtract,
leaving the stored balance unchanged; add yields balance + amount, subtract
yields balance − amount; no bound is enforced, and a subtract may drive the
balance negative. -/
theorem C9_balance_delta_contract :
    (∀ b a : Int, ∀ op : String, op ≠ "add" → op ≠ "subtract" →
      (∃ e, update_system_balance b a op = Except.error e) ∧
        storedBalanceAfter b a op = b) ∧
    (∀ b a : Int, update_system_balance b a "add" = Except.ok (b + a) ∧
        update_system_balance b a "subtract" = Except.ok (b - a)) ∧
    update_system_balance 0 5 "subtract" = Except.ok (-5) := by
  refine ⟨?_, ?_, ?_⟩
  · intro b a op h1 h2
    refine ⟨⟨"Invalid operation: " ++ op, ?_⟩, ?_⟩
    · simp [update_system_balance, h1, h2]
    · simp [storedBalanceAfter, update_system_balance, h1, h2]
  · intro b a
    constructor <;> simp [update_system_balance]
  · rfl

/-- C9 witness: the theorem applied at a concrete invalid operation string and
at concrete add/subtract calls. -/
theorem C9_balance_delta_contract_witness :
    ((∃ e, update_system_balance 7 3 "noop" = Except.error e) ∧
      storedBalanceAfter 7 3 "noop" = 7) ∧
    update_system_balance 10 4 "add" = Except.ok 14 ∧
    update_system_balance 10 4 "subtract" = Except.ok 6 := by
  refine ⟨C9_balance_delta_contract.1 7 3 "noop" (by decide) (by decide), ?_, ?_⟩
  · exact (C9_balance_delta_contract.2.1 10 4).1
  · exact (C9_balance_delta_contract.2.1 10 4).2

theorem txnCount_deleteFor_self (ts : List Txn) (pt : String) (oid : Nat) :
    txnCount (txnDeleteFor pt oid ts) pt oid = 0 := by
  induction ts with
  | nil => rfl
  | cons t ts ih =>
    by_cases h : t.payment_type = pt ∧ t.related_object_id = oid
    · simpa [txnDeleteFor, txnCount, h] using ih
    · simpa [txnDeleteFor, txnCount, h] using ih

theorem txnCount_deleteFor_other (ts : List Txn) (pt pt2 : String) (oid oid2 : Nat)
    (h : ¬(pt2 = pt ∧ oid2 = oid)) :
    txnCount (txnDeleteFor pt oid ts) pt2 oid2 = txnCount ts pt2 oid2 := by
  unfold txnCount txnDeleteFor
  rw [List.filter_filter]
  apply congrArg List.length
  apply List.filter_congr
  intro t ht
  by_cases hA : t.payment_type = pt2
  · by_cases hB : t.related_object_id = oid2
    · have hng : ¬(t.payment_type = pt ∧ t.related_object_id = oid) := by
        rintro ⟨ha, hb⟩
        exact h ⟨hA.symm.trans ha, hB.symm.trans hb⟩
      simp only [hA, hB] at hng ⊢
      simp
      by_cases hp : pt2 = pt
      · exact Or.inr (fun ho => hng ⟨hp, ho⟩)
      · exact Or.inl hp
    · simp [hB]
  · simp [hA]

theorem txnCount_append_one (ts : List Txn) (t : Txn) (pt : String) (oid : Nat) :
    txnCount (ts ++ [t]) pt oid =
      txnCount ts pt oid +
        (if t.payment_type = pt ∧ t.related_object_id = oid then 1 else 0) := by
  by_cases h : t.payment_type = pt ∧ t.related_object_id = oid <;>
    simp [txnCount, List.filter_append, h]

/-- A freshly recorded cash transaction leaves every pair with at most one
row, provided every pair had at most one row before. -/
theorem txnCount_insert_le_one (ts : List Txn) (pt0 : String) (pk : Nat) (a : Int)
    (hts : ∀ pt oid, txnCount ts pt oid ≤ 1) (pt : String) (oid : Nat) :
    txnCount (txnDeleteFor pt0 pk ts ++
      [{ payment_type := pt0, related_object_id := pk, amount := a }]) pt oid ≤ 1 := by
  rw [txnCount_append_one]
  by_cases h : pt = pt0 ∧ oid = pk
  · obtain ⟨h1, h2⟩ := h
    subst h1; subst h2
    simp [txnCount_deleteFor_self]
  · rw [txnCount_deleteFor_other ts pt0 pt pk oid h]
    have := hts pt oid
    have h2 : ¬(pt0 = pt ∧ pk = oid) := by
      rintro ⟨ha, hb⟩
      exact h ⟨ha.symm, hb.symm⟩
    simp only [Txn.mk.injEq] at *
    simp [h2]
    omega

/-- Every reachable transaction table has at most one row per pair. -/
theorem step_txn_le_one (s : LedgerState) (op : Op)
    (hs : ∀ pt oid, txnCount s.txns pt oid ≤ 1) :
    ∀ pt oid, txnCount (step s op).txns pt oid ≤ 1 := by
  intro pt oid
  cases op with
  | depCreate r =>
    simp only [step, payCreateCore]
    by_cases h : r.payment_status = PayStatus.paid ∧ r.is_custom = true
    · simp only [h.1, h.2, and_self, if_pos trivial]
      simpa using txnCount_insert_le_one s.txns "deposit" s.nextId r.amount hs pt oid
    · have : ¬(r.payment_status = PayStatus.paid ∧ r.is_custom = true) := h
      simp only [this, if_neg]
      · exact hs pt oid
  | intCreate r =>
    simp only [step, payCreateCore]
    by_cases h : r.payment_status = PayStatus.paid ∧ r.is_custom = true
    · simp only [h.1, h.2, and_self, if_pos trivial]
      simpa using txnCount_insert_le_one s.txns "interest" s.nextId r.amount hs pt oid
    · simp only [h, if_neg]
      · exact hs pt oid
  | prinCreate r =>
    simp only [step, payCreateCore]
    by_cases h : r.payment_status = PayStatus.paid ∧ r.is_custom = true
    · simp only [h.1, h.2, and_self, if_pos trivial]
      simpa using txnCount_insert_le_one s.txns "principle" s.nextId r.amount hs pt oid
    · simp only [h, if_neg]
      · exact hs pt oid
  | depUpdate pk r =>
    simp only [step, payUpdateCore]
    cases hl : lookupPk pk s.deposits with
    | none => exact hs pt oid
    | some old =>
      by_cases h : r.payment_status = PayStatus.paid ∧ r.is_custom = true ∧
          old.payment_status ≠ PayStatus.paid
      · simp only [h.1, h.2.1, h.2.2, if_pos, and_self, ne_eq, not_false_eq_true]
        simpa using txnCount_insert_le_one s.txns "deposit" pk r.amount hs pt oid
      · simp only [h, if_neg]
        · exact hs pt oid
  | intUpdate pk r =>
    simp only [step, payUpdateCore]
    cases hl : lookupPk pk s.interests with
    | none => exact hs pt oid
    | some old =>
      by_cases h : r.payment_status = PayStatus.paid ∧ r.is_custom = true ∧
          old.payment_status ≠ PayStatus.paid
      · simp only [h.1, h.2.1, h.2.2, if_pos, and_self, ne_eq, not_false_eq_true]
        simpa using txnCount_insert_le_one s.txns "interest" pk r.amount hs pt oid
      · simp only [h, if_neg]
        · exact hs pt oid
  | prinUpdate pk r =>
    simp only [step, payUpdateCore]
    cases hl : lookupPk pk s.principles with
    | none => exact hs pt oid
    | some old =>
      by_cases h : r.payment_status = PayStatus.paid ∧ r.is_custom = true ∧
          old.payment_status ≠ PayStatus.paid
      · simp only [h.1, h.2.1, h.2.2, if_pos, and_self, ne_eq, not_false_eq_true]
        simpa using txnCount_insert_le_one s.txns "principle" pk r.amount hs pt oid
      · simp only [h, if_neg]
        · exact hs pt oid
  | depDelete pk =>
    simp only [step, payDeleteCore]
    cases hl : lookupPk pk s.deposits with
    | none => exact hs pt oid
    | some old => exact hs pt oid
  | intDelete pk =>
    simp only [step, payDeleteCore]
    cases hl : lookupPk pk s.interests with
    | none => exact hs pt oid
    | some old => exact hs pt oid
  | prinDelete pk =>
    simp only [step, payDeleteCore]
    cases hl : lookupPk pk s.principles with
    | none => exact hs pt oid
    | some old => exact hs pt oid
  | fundCreate r => exact hs pt oid
  | fundUpdate pk r =>
    simp only [step]
    cases hl : lookupPk pk s.funds with
    | none => exact hs pt oid
    | some old => exact hs pt oid
  | fundDelete pk =>
    simp only [step]
    cases hl : lookupPk pk s.funds with
    | none => exact hs pt oid
    | some old => exact hs pt oid

theorem run_txn_le_one (ops : List Op) (s : LedgerState)
    (hs : ∀ pt oid, txnCount s.txns pt oid ≤ 1) :
    ∀ pt oid, txnCount (run ops s).txns pt oid ≤ 1 := by
  induction ops generalizing s with
  | nil => exact hs
  | cons op t ih => exact ih (step s op) (step_txn_le_one s op hs)

theorem txnCount_insert_self (ts : List Txn) (pt : String) (pk : Nat) (a : Int) :
    txnCount (txnDeleteFor pt pk ts ++
      [{ payment_type := pt, related_object_id := pk, amount := a }]) pt pk = 1 := by
  rw [txnCount_append_one, txnCount_deleteFor_self]
  simp

/-- C5: At-most-one payment transaction.  Over every reachable hook state at
most one `PaymentTransaction` row exists per `(payment_type,
related_object_id)` pair; no transaction is ever created by a save whose
status is pending; and a pending→paid transition of an `is_custom` deposit,
interest or principle payment leaves exactly one transaction row for its
pair (any pre-existing row for the pair having been deleted first). -/
theorem C5_at_most_one_payment_transaction :
    (∀ (b : Int) (ops : List Op) (pt : String) (oid : Nat),
      txnCount (run ops (initState b)).txns pt oid ≤ 1) ∧
    (∀ (s : LedgerState) (pk : Nat) (r : PayRec), r.payment_status = PayStatus.pending →
      (step s (Op.depCreate r)).txns = s.txns ∧
      (step s (Op.intCreate r)).txns = s.txns ∧
      (step s (Op.prinCreate r)).txns = s.txns ∧
      (step s (Op.depUpdate pk r)).txns = s.txns ∧
      (step s (Op.intUpdate pk r)).txns = s.txns ∧
      (step s (Op.prinUpdate pk r)).txns = s.txns) ∧
    (∀ (s : LedgerState) (pk : Nat) (old r : PayRec),
      r.payment_status = PayStatus.paid → r.is_custom = true →
      old.payment_status ≠ PayStatus.paid →
      (lookupPk pk s.deposits = some old →
        txnCount (step s (Op.depUpdate pk r)).txns "deposit" pk = 1) ∧
      (lookupPk pk s.interests = some old →
        txnCount (step s (Op.intUpdate pk r)).txns "interest" pk = 1) ∧
      (lookupPk pk s.principles = some old →
        txnCount (step s (Op.prinUpdate pk r)).txns "principle" pk = 1)) := by
  refine ⟨?_, ?_, ?_⟩
  · intro b ops pt oid
    apply run_txn_le_one
    intro pt2 oid2
    simp [initState, txnCount]
  · intro s pk r hr
    refine ⟨?_, ?_, ?_, ?_, ?_, ?_⟩
    · simp [step, payCreateCore, hr]
    · simp [step, payCreateCore, hr]
    · simp [step, payCreateCore, hr]
    · simp only [step, payUpdateCore]
      cases lookupPk pk s.deposits <;> simp [hr]
    · simp only [step, payUpdateCore]
      cases lookupPk pk s.interests <;> simp [hr]
    · simp only [step, payUpdateCore]
      cases lookupPk pk s.principles <;> simp [hr]
  · intro s pk old r hr hc hold
    refine ⟨?_, ?_, ?_⟩ <;> intro hl <;>
      simp only [step, payUpdateCore, hl] <;>
      simp [hr, hc, hold, txnCount_insert_self]

/-- C5 witness: the theorem applied to a concrete one-deposit state, a
concrete pending edit, and a concrete pending→paid cash transition. -/
theorem C5_at_most_one_payment_transaction_witness :
    txnCount (run [Op.depCreate ⟨100, PayStatus.pending, true⟩] (initState 0)).txns
        "deposit" 1 ≤ 1 ∧
    (step ⟨0, [(1, ⟨100, PayStatus.pending, true⟩)], [], [], [], [], 2⟩
        (Op.depUpdate 1 ⟨100, PayStatus.pending, true⟩)).txns = [] ∧
    txnCount (step ⟨0, [(1, ⟨100, PayStatus.pending, true⟩)], [], [], [], [], 2⟩
        (Op.depUpdate 1 ⟨100, PayStatus.paid, true⟩)).txns "deposit" 1 = 1 := by
  refine ⟨?_, ?_, ?_⟩
  · exact C5_at_most_one_payment_transaction.1 0 _ "deposit" 1
  · exact (C5_at_most_one_payment_transaction.2.1 _ 1 _ rfl).2.2.2.1
  · exact ((C5_at_most_one_payment_transaction.2.2 _ 1
      ⟨100, PayStatus.pending, true⟩ ⟨100, PayStatus.paid, true⟩
      rfl rfl (by decide)).1 rfl)

/-! ## Penalty accrual: idempotency lemmas -/

theorem oblBody_cases (pt : String) (oid : Nat) (base : Int) (ps : PyDate) (ex : List Int)
    (db2 : List PenaltyRow) (i : Nat) :
    (oblBody pt oid base ps ex false false db2 i = db2 ∧ ((i : Int) + 1) ∈ ex) ∨
    (∃ r, oblBody pt oid base ps ex false false db2 i = db2 ++ [r] ∧
      r.penalty_type = pt ∧ r.related_object_id = oid ∧ r.month_number = (i : Int) + 1) := by
  by_cases hm : ((i : Int) + 1) ∈ ex
  · exact Or.inl ⟨by simp [oblBody, hm], hm⟩
  · right
    simp only [oblBody, hm, penaltySaveNew, false_and, if_false, Bool.not_false,
      and_false, if_neg, not_false_iff]
    refine ⟨_, rfl, ?_, ?_, ?_⟩ <;> rfl

theorem oblFold_extends (pt : String) (oid : Nat) (base : Int) (ps : PyDate) (ex : List Int)
    (l : List Nat) (db2 : List PenaltyRow) :
    ∃ t, l.foldl (oblBody pt oid base ps ex false false) db2 = db2 ++ t := by
  induction l generalizing db2 with
  | nil => exact ⟨[], by simp⟩
  | cons j l ih =>
    rcases oblBody_cases pt oid base ps ex db2 j with ⟨hb, _⟩ | ⟨r, hb, _, _, _⟩
    · obtain ⟨t, ht⟩ := ih (oblBody pt oid base ps ex false false db2 j)
      exact ⟨t, by simpa [hb] using ht⟩
    · obtain ⟨t, ht⟩ := ih (oblBody pt oid base ps ex false false db2 j)
      rw [hb] at ht
      refine ⟨[r] ++ t, ?_⟩
      simp only [List.foldl_cons, hb, ht]
      simp

theorem penaltyMonths_mono (pt : String) (oid : Nat) (db2 t : List PenaltyRow) (m : Int)
    (h : m ∈ penaltyMonthsFor db2 pt oid) : m ∈ penaltyMonthsFor (db2 ++ t) pt oid := by
  simp only [penaltyMonthsFor, List.filter_append, List.map_append, List.mem_append]
  exact Or.inl h

theorem oblFold_coverage (pt : String) (oid : Nat) (base : Int) (ps : PyDate) (ex : List Int)
    (l : List Nat) (db2 : List PenaltyRow)
    (hex : ∀ m ∈ ex, m ∈ penaltyMonthsFor db2 pt oid) :
    ∀ i ∈ l, ((i : Int) + 1) ∈
      penaltyMonthsFor (l.foldl (oblBody pt oid base ps ex false false) db2) pt oid := by
  induction l generalizing db2 with
  | nil => intro i hi; cases hi
  | cons j l ih =>
    have hbody := oblBody_cases pt oid base ps ex db2 j
    have hsub : ∀ m ∈ ex,
        m ∈ penaltyMonthsFor (oblBody pt oid base ps ex false false db2 j) pt oid := by
      intro m hm
      rcases hbody with ⟨hb, _⟩ | ⟨r, hb, _, _, _⟩
      · rw [hb]; exact hex m hm
      · rw [hb]; exact penaltyMonths_mono pt oid db2 [r] m (hex m hm)
    intro i hi
    rcases List.mem_cons.mp hi with rfl | hi2
    · -- the head month is present right after its own iteration and persists
      have hstep : ((i : Int) + 1) ∈
          penaltyMonthsFor (oblBody pt oid base ps ex false false db2 i) pt oid := by
        rcases hbody with ⟨hb, hmem⟩ | ⟨r, hb, h1, h2, h3⟩
        · rw [hb]; exact hex _ hmem
        · rw [hb]
          simp only [penaltyMonthsFor, List.filter_append, List.map_append, List.mem_append]
          right
          simp [h1, h2, h3]
      obtain ⟨t, ht⟩ := oblFold_extends pt oid base ps ex l
        (oblBody pt oid base ps ex false false db2 i)
      simp only [List.foldl_cons, ht]
      exact penaltyMonths_mono pt oid _ t _ hstep
    · simp only [List.foldl_cons]
      exact ih (oblBody pt oid base ps ex false false db2 j) hsub i hi2

theorem oblFold_skip_all (pt : String) (oid : Nat) (base : Int) (ps : PyDate) (ex : List Int)
    (l : List Nat) (db2 : List PenaltyRow)
    (h : ∀ i ∈ l, ((i : Int) + 1) ∈ ex) :
    l.foldl (oblBody pt oid base ps ex false false) db2 = db2 := by
  induction l generalizing db2 with
  | nil => rfl
  | cons j l ih =>
    have hj : ((j : Int) + 1) ∈ ex := h j (List.mem_cons_self j l)
    have hb : oblBody pt oid base ps ex false false db2 j = db2 := by
      simp [oblBody, hj]
    simp only [List.foldl_cons, hb]
    exact ih db2 (fun i hi => h i (List.mem_cons_of_mem j hi))

/-- C2: Compounding correctness.  Processing an overdue obligation with base
penalty 1000 and three overdue months against a database with no penalties
for the obligation creates exactly three penalty rows with
`penalty_amount` 1000, 2000 and 4000 (base × 2^(month−1)) for months 1, 2
and 3, and the `total_penalty` stored on the third equals 7000, the sum of
the pending penalty amounts of all three sibling rows for the same
`(penalty_type, related_object_id)`. -/
theorem C2_compounding_correctness (ps : PyDate) :
    (processObligation [] "deposit" 1 1000 3 ps false false).map
        (fun q => q.penalty_amount) = [1000, 2000, 4000] ∧
    (processObligation [] "deposit" 1 1000 3 ps false false).map
        (fun q => q.month_number) = [1, 2, 3] ∧
    ∃ r3, (processObligation [] "deposit" 1 1000 3 ps false false).getLast? = some r3 ∧
      r3.total_penalty = 7000 ∧
      r3.total_penalty =
        (((processObligation [] "deposit" 1 1000 3 ps false false).filter
            (fun q => q.penalty_type = "deposit" ∧ q.related_object_id = 1 ∧
              q.payment_status = PayStatus.pending)).map
          (fun q => q.penalty_amount)).sum := by
  have h3 : (3 : Int).toNat = 3 := rfl
  refine ⟨?_, ?_, ?_⟩ <;>
    simp [processObligation, oblBody, penaltySaveNew, penaltyMonthsFor, h3,
      List.range_succ] <;>
    norm_num

/-- C4: Idempotent penalty accrual / force-mode duplication.  With
`force=False` a second run over the same obligation creates zero additional
penalty rows (every month is matched by the existing-month skip).  With
`force=True` the claim fails in the code: the delete of the pre-existing
penalty is guarded by membership in a month set that force mode leaves
empty, so the existing row is never deleted and a second forced run
duplicates the month-1 penalty instead of replacing it. -/
theorem C4_penalty_accrual_idempotency :
    (∀ (db : List PenaltyRow) (pt : String) (oid : Nat) (base mo : Int) (ps : PyDate),
      processObligation (processObligation db pt oid base mo ps false false)
          pt oid base mo ps false false =
        processObligation db pt oid base mo ps false false) ∧
    ((processObligation (processObligation [] "deposit" 1 1000 1 ⟨2025, 1, 11⟩ true false)
        "deposit" 1 1000 1 ⟨2025, 1, 11⟩ true false).map
      (fun q => (q.month_number, q.penalty_amount)) = [(1, 1000), (1, 1000)]) := by
  constructor
  · intro db pt oid base mo ps
    have hcov := oblFold_coverage pt oid base ps (penaltyMonthsFor db pt oid)
      (List.range mo.toNat) db (fun m hm => hm)
    have hdb1 : processObligation db pt oid base mo ps false false =
        (List.range mo.toNat).foldl
          (oblBody pt oid base ps (penaltyMonthsFor db pt oid) false false) db := rfl
    conv_lhs => rw [processObligation]
    apply oblFold_skip_all
    intro i hi
    rw [hdb1]
    exact hcov i hi
  · rfl

/-! ## Months-overdue lemmas -/

theorem pyDateLt_iff (a b : PyDate) :
    pyDateLt a b = true ↔
      (a.year < b.year ∨ (a.year = b.year ∧ (a.month < b.month ∨
        (a.month = b.month ∧ a.day < b.day)))) := by
  unfold pyDateLt
  split_ifs <;> simp <;> omega

theorem pyDateLe_iff (a b : PyDate) :
    pyDateLe a b = true ↔ (pyDateLt a b = true ∨ a = b) := by
  unfold pyDateLe
  simp

theorem pyDateLe_eq_false_of_lt (a b : PyDate) (h : pyDateLt a b = true) :
    pyDateLe b a = false := by
  rw [Bool.eq_false_iff]
  intro hc
  rw [pyDateLe_iff] at hc
  rw [pyDateLt_iff] at h
  obtain ⟨y1, m1, d1⟩ := a
  obtain ⟨y2, m2, d2⟩ := b
  rcases hc with hc | hc
  · rw [pyDateLt_iff] at hc
    simp only at h hc
    omega
  · simp only [PyDate.mk.injEq] at hc
    simp only at h
    omega

theorem addMonths_zero (d : PyDate) (hd : validDate d) : addMonths d 0 = d := by
  obtain ⟨y, m, dd⟩ := d
  obtain ⟨h1, h2, h3, h4⟩ := hd
  simp only at h1 h2 h3 h4
  unfold addMonths
  simp only [PyDate.mk.injEq]
  have hy : (12 * y + (m - 1) + 0) / 12 = y := by omega
  have hm : (12 * y + (m - 1) + 0) % 12 + 1 = m := by omega
  refine ⟨hy, hm, ?_⟩
  rw [hy, hm]
  exact min_eq_left h4

theorem relDelta_fst_nonneg (s e : PyDate) (hs : validDate s) (he : validDate e)
    (hlt : pyDateLt s e = true) : 0 ≤ (relDelta s e).1 := by
  obtain ⟨y1, m1, d1⟩ := s
  obtain ⟨y2, m2, d2⟩ := e
  obtain ⟨ha1, ha2, ha3, ha4⟩ := hs
  obtain ⟨hb1, hb2, hb3, hb4⟩ := he
  simp only at ha1 ha2 ha3 ha4 hb1 hb2 hb3 hb4
  rw [pyDateLt_iff] at hlt
  simp only at hlt
  unfold relDelta
  simp only
  by_cases hm : 1 ≤ 12 * (y2 - y1) + (m2 - m1)
  · split <;> simp <;> omega
  · have hkey : y2 = y1 ∧ m2 = m1 ∧ d1 < d2 := by omega
    obtain ⟨hy, hmm, hdd⟩ := hkey
    have hzero : 12 * (y2 - y1) + (m2 - m1) = 0 := by omega
    rw [hzero]
    have hadd : addMonths ⟨y1, m1, d1⟩ 0 = ⟨y1, m1, d1⟩ :=
      addMonths_zero _ ⟨ha1, ha2, ha3, ha4⟩
    rw [hadd]
    have hfalse : pyDateLt ⟨y2, m2, d2⟩ ⟨y1, m1, d1⟩ = false := by
      rw [Bool.eq_false_iff]
      intro hcc
      rw [pyDateLt_iff] at hcc
      simp only at hcc
      omega
    rw [hfalse]
    simp

/-- C8: Months-overdue computation.  `calculate_months_overdue` returns 0
whenever `end ≤ start`; for valid dates with `start < end` it returns the
relativedelta month difference plus one exactly when end's day-of-month is at
least start's or a day remainder exists; and an obligation whose computed
overdue count is non-positive is skipped, creating no penalty. -/
theorem C8_months_overdue :
    (∀ s e : PyDate, pyDateLe e s = true → calculate_months_overdue s e = 0) ∧
    (∀ s e : PyDate, validDate s → validDate e → pyDateLt s e = true →
      calculate_months_overdue s e =
        (relDelta s e).1 + (if e.day ≥ s.day ∨ (relDelta s e).2 > 0 then 1 else 0)) ∧
    (∀ (today : PyDate) (grace : Nat) (base : Int) (force dryRun : Bool)
        (db : List PenaltyRow) (dep : DepObligation),
      calculate_months_overdue (addDays dep.date grace) today ≤ 0 →
      processDeposit today grace base force dryRun db dep = db) := by
  refine ⟨?_, ?_, ?_⟩
  · intro s e h
    unfold calculate_months_overdue
    rw [h]
    simp
  · intro s e hs he hlt
    have h0 := relDelta_fst_nonneg s e hs he hlt
    have hle := pyDateLe_eq_false_of_lt s e hlt
    unfold calculate_months_overdue
    rw [hle]
    simp only [Bool.false_eq_true, if_false]
    split_ifs with hcond
    · rw [max_eq_right (by omega)]
    · rw [max_eq_right (by omega)]
      omega
  · intro today grace base force dryRun db dep h
    simp only [processDeposit]
    split_ifs with h1 h2 h3 <;> first | rfl | exact absurd h h3

/-- C8 witness: the three parts applied at concrete dates (an end before the
start, the spec's 2025-01-10 → 2025-04-05 example, and a deposit inside its
grace window). -/
theorem C8_months_overdue_witness :
    calculate_months_overdue ⟨2025, 5, 1⟩ ⟨2025, 4, 1⟩ = 0 ∧
    calculate_months_overdue ⟨2025, 1, 10⟩ ⟨2025, 4, 5⟩ =
      (relDelta ⟨2025, 1, 10⟩ ⟨2025, 4, 5⟩).1 +
        (if (⟨2025, 4, 5⟩ : PyDate).day ≥ (⟨2025, 1, 10⟩ : PyDate).day ∨
            (relDelta ⟨2025, 1, 10⟩ ⟨2025, 4, 5⟩).2 > 0 then 1 else 0) ∧
    processDeposit ⟨2025, 1, 5⟩ 10 1000 false false []
      { pk := 1, date := ⟨2025, 1, 1⟩, payment_status := PayStatus.pending } = [] := by
  refine ⟨?_, ?_, ?_⟩
  · exact C8_months_overdue.1 ⟨2025, 5, 1⟩ ⟨2025, 4, 1⟩ (by decide)
  · exact C8_months_overdue.2.1 ⟨2025, 1, 10⟩ ⟨2025, 4, 5⟩ (by decide) (by decide) (by decide)
  · exact C8_months_overdue.2.2 ⟨2025, 1, 5⟩ 10 1000 false false []
      { pk := 1, date := ⟨2025, 1, 1⟩, payment_status := PayStatus.pending } (by decide)

/-! ## Generator lemmas -/

theorem genFold_cons (ex : List α → Int × Int → Bool) (mk : Int × Int → α)
    (ym : Int × Int) (l : List (Int × Int)) (rows : List α) :
    genFold ex mk (ym :: l) rows =
      genFold ex mk l (if ex rows ym then rows else rows ++ [mk ym]) := rfl

theorem genFold_extends_mk (ex : List α → Int × Int → Bool) (mk : Int × Int → α)
    (months : List (Int × Int)) (rows : List α) :
    ∃ t, genFold ex mk months rows = rows ++ t ∧ ∀ r ∈ t, ∃ ym ∈ months, r = mk ym := by
  induction months generalizing rows with
  | nil => exact ⟨[], by simp [genFold], by simp⟩
  | cons ym l ih =>
    rw [genFold_cons]
    by_cases h : ex rows ym
    · rw [if_pos h]
      obtain ⟨t, ht, hmem⟩ := ih rows
      refine ⟨t, ht, ?_⟩
      intro r hr
      obtain ⟨ym2, hym2, hre⟩ := hmem r hr
      exact ⟨ym2, List.mem_cons_of_mem _ hym2, hre⟩
    · rw [if_neg h]
      obtain ⟨t, ht, hmem⟩ := ih (rows ++ [mk ym])
      refine ⟨[mk ym] ++ t, ?_, ?_⟩
      · rw [ht]
        simp
      · intro r hr
        rcases List.mem_append.mp hr with hr | hr
        · rw [List.mem_singleton] at hr
          exact ⟨ym, List.mem_cons_self _ _, hr⟩
        · obtain ⟨ym2, hym2, hre⟩ := hmem r hr
          exact ⟨ym2, List.mem_cons_of_mem _ hym2, hre⟩

theorem genFold_coverage (ex : List α → Int × Int → Bool) (mk : Int × Int → α)
    (hmono : ∀ (rows t : List α) (ym : Int × Int), ex rows ym = true → ex (rows ++ t) ym = true)
    (hmk : ∀ (rows : List α) (ym : Int × Int), ex (rows ++ [mk ym]) ym = true)
    (months : List (Int × Int)) (rows : List α) :
    ∀ ym ∈ months, ex (genFold ex mk months rows) ym = true := by
  induction months generalizing rows with
  | nil => intro ym h; cases h
  | cons j l ih =>
    intro ym hym
    rw [genFold_cons]
    rcases List.mem_cons.mp hym with rfl | hym2
    · have hstep : ex (if ex rows ym then rows else rows ++ [mk ym]) ym = true := by
        by_cases h : ex rows ym
        · rw [if_pos h]; exact h
        · rw [if_neg h]; exact hmk rows ym
      obtain ⟨t, ht, _⟩ := genFold_extends_mk ex mk l
        (if ex rows ym then rows else rows ++ [mk ym])
      rw [ht]
      exact hmono _ t ym hstep
    · exact ih _ ym hym2

theorem genFold_skip_all (ex : List α → Int × Int → Bool) (mk : Int × Int → α)
    (months : List (Int × Int)) (rows : List α)
    (h : ∀ ym ∈ months, ex rows ym = true) :
    genFold ex mk months rows = rows := by
  induction months with
  | nil => rfl
  | cons j l ih =>
    rw [genFold_cons, if_pos (h j (List.mem_cons_self j l))]
    exact ih (fun ym hym => h ym (List.mem_cons_of_mem j hym))

theorem genFold_idem (ex : List α → Int × Int → Bool) (mk : Int × Int → α)
    (hmono : ∀ (rows t : List α) (ym : Int × Int), ex rows ym = true → ex (rows ++ t) ym = true)
    (hmk : ∀ (rows : List α) (ym : Int × Int), ex (rows ++ [mk ym]) ym = true)
    (months : List (Int × Int)) (rows : List α) :
    genFold ex mk months (genFold ex mk months rows) = genFold ex mk months rows :=
  genFold_skip_all ex mk months _
    (fun ym hym => genFold_coverage ex mk hmono hmk months rows ym hym)

theorem depositExists_mono (rows t : List GDeposit) (ym : Int × Int)
    (h : depositExists rows ym.1 ym.2 = true) :
    depositExists (rows ++ t) ym.1 ym.2 = true := by
  unfold depositExists at h ⊢
  rw [List.any_append, h]
  rfl

theorem depositExists_mk (rows : List GDeposit) (dueDay : Int) (ym : Int × Int) :
    depositExists (rows ++ [mkPendingDeposit dueDay ym]) ym.1 ym.2 = true := by
  unfold depositExists
  rw [List.any_append]
  simp [mkPendingDeposit, clampedDueDate]

theorem interestExists_mono (rows t : List GInterest) (ym : Int × Int)
    (h : interestExists rows ym.1 ym.2 = true) :
    interestExists (rows ++ t) ym.1 ym.2 = true := by
  unfold interestExists at h ⊢
  rw [List.any_append, h]
  rfl

theorem interestExists_mk (rows : List GInterest) (dueDay : Int) (ym : Int × Int) :
    interestExists (rows ++ [mkPendingInterest dueDay ym]) ym.1 ym.2 = true := by
  unfold interestExists
  rw [List.any_append]
  simp [mkPendingInterest, clampedDueDate]

/-- C3: Idempotent obligation generation.  Running either generator half a
second time with the same today, the same configured due day and an unchanged
database creates zero additional rows: every month the second run enumerates
is matched by the existence check (date / paid_date month-year or the derived
label) against the state the first run leaves behind. -/
theorem C3_generator_idempotent (today : PyDate) (depDay intDay : Int)
    (startD startI : PyDate) (drows : List GDeposit) (irows : List GInterest) :
    create_pending_deposits today depDay startD
        (create_pending_deposits today depDay startD drows) =
      create_pending_deposits today depDay startD drows ∧
    create_pending_interest_payments today intDay startI
        (create_pending_interest_payments today intDay startI irows) =
      create_pending_interest_payments today intDay startI irows := by
  constructor
  · unfold create_pending_deposits
    exact genFold_idem _ _ depositExists_mono (fun rows ym => depositExists_mk rows depDay ym)
      _ drows
  · unfold create_pending_interest_payments
    exact genFold_idem _ _ interestExists_mono (fun rows ym => interestExists_mk rows intDay ym)
      _ irows

/-- C7 counterexample: for a leap-year February with configured due day 31
the penalty engine's parsed interest due date is February 28 (the source
clamps the day to `min(day, 28)`), not the last valid day February 29, so the
claim as stated fails on the penalty due-date path. -/
theorem C7_counterexample_leap_february :
    (interestNameDueDate 2024 2 31).day = 28 ∧ daysInMonth 2024 2 = 29 ∧
      interestNameDueDate 2024 2 31 ≠ ⟨2024, 2, 29⟩ := by decide

/-- C7 (amended): the generator's obligation date clamps the configured due
day to the last valid day of the month (February 29 in a leap year, 28
otherwise) and is always a valid date; the penalty engine's parsed interest
due date instead clamps the day to at most 28 — also always valid, never
erroring, but landing on February 28 even in leap years. -/
theorem C7_month_end_clamping (y m dueDay : Int) (hm1 : 1 ≤ m) (hm2 : m ≤ 12)
    (hd : 1 ≤ dueDay) :
    (clampedDueDate y m dueDay).day = min dueDay (daysInMonth y m) ∧
    validDate (clampedDueDate y m dueDay) ∧
    (interestNameDueDate y m dueDay).day = min dueDay 28 ∧
    validDate (interestNameDueDate y m dueDay) ∧
    clampedDueDate 2024 2 31 = ⟨2024, 2, 29⟩ ∧
    clampedDueDate 2023 2 31 = ⟨2023, 2, 28⟩ := by
  have hdim : 28 ≤ daysInMonth y m := by
    unfold daysInMonth
    split_ifs <;> omega
  refine ⟨rfl, ?_, rfl, ?_, by decide, by decide⟩
  · unfold validDate clampedDueDate
    simp only
    exact ⟨hm1, hm2, by omega, by omega⟩
  · unfold validDate interestNameDueDate
    simp only
    exact ⟨hm1, hm2, by omega, by omega⟩

/-- C7 witness: the amended theorem applied at leap-year February 2024 with
due day 31. -/
theorem C7_month_end_clamping_witness :
    (clampedDueDate 2024 2 31).day = min 31 (daysInMonth 2024 2) ∧
    validDate (clampedDueDate 2024 2 31) ∧
    (interestNameDueDate 2024 2 31).day = min 31 28 ∧
    validDate (interestNameDueDate 2024 2 31) ∧
    clampedDueDate 2024 2 31 = ⟨2024, 2, 29⟩ ∧
    clampedDueDate 2023 2 31 = ⟨2023, 2, 28⟩ :=
  C7_month_end_clamping 2024 2 31 (by decide) (by decide) (by decide)

/-- C10: every interest row the generator creates is pending with a non-null
`paid_date` equal to the computed monthly due date, and the accrual engine's
due-date selection returns exactly that `paid_date` — for generator-created
rows `paid_date` denotes the due date of an unpaid obligation. -/
theorem C10_generator_paid_date_is_due_date (today : PyDate) (dueDay : Int)
    (start : PyDate) (rows : List GInterest) :
    ∃ t, create_pending_interest_payments today dueDay start rows = rows ++ t ∧
      ∀ r ∈ t, r.payment_status = PayStatus.pending ∧
        ∃ y m, r.paid_date = some (clampedDueDate y m dueDay) ∧
          ∀ (settingsDay : Int) (createdAt : PyDate),
            interestDueDate settingsDay createdAt r = clampedDueDate y m dueDay := by
  unfold create_pending_interest_payments
  obtain ⟨t, ht, hmem⟩ := genFold_extends_mk
    (fun rows2 ym => interestExists rows2 ym.1 ym.2) (mkPendingInterest dueDay)
    (get_months_to_check start today (decide (today.day ≥ dueDay))) rows
  refine ⟨t, ht, ?_⟩
  intro r hr
  obtain ⟨ym, _, rfl⟩ := hmem r hr
  exact ⟨rfl, ym.1, ym.2, rfl, fun sd ca => rfl⟩

end Microfinance
